import Mathlib

/-!
Verification of the humos_canvas infinite-canvas application.

This file shallowly embeds the core of `src/InfiniteCanvas.js`,
`src/markdownParser.js` and `src/markdownRenderer.js` in Lean 4 and proves
(or refutes) the specification claims about the viewport transform, the
markdown layout engine, the snapshot history, connections and resizing.

Conventions of the embedding:
* JavaScript numbers are modelled as exact rationals (`ℚ`).  All the claims
  under study are about arithmetic identities or order comparisons that the
  JS code performs on plain sums, differences, products and divisions, so
  the rational model is faithful up to floating-point rounding (the spec
  itself asks for the zoom invariant "within floating-point tolerance";
  in the rational model it holds exactly).
* JavaScript strings are modelled as `List Char`.
* Node/connection ids are modelled as `Nat`; the code compares them with
  `===` and never does arithmetic on them.
* `ctx.measureText` is modelled by an arbitrary function
  `measure : FontSpec → List Char → ℚ` (the canvas font state is made an
  explicit argument: the source always sets `ctx.font` before measuring).
* DOM/canvas side effects (`draw`, cursors, `saveToLocalStorage`,
  notifications, console logging) do not touch the embedded state and are
  omitted.
-/

namespace HumosCanvas

/-! ## String helpers (JavaScript semantics) -/

/-- JavaScript `String.prototype.split(sep)` for a single-character
separator: splits at every occurrence and keeps empty pieces, and the
result is never empty (`''.split(c) = ['']`). -/
def splitOnChar (c : Char) : List Char → List (List Char)
  | [] => [[]]
  | a :: rest =>
    let r := splitOnChar c rest
    if a = c then [] :: r
    else
      match r with
      | h :: t => (a :: h) :: t
      | [] => [[a]]

/-- The whitespace characters relevant to the inputs at hand; JavaScript
`trim` strips these (and further unicode spaces that never occur here). -/
def isJsSpace (c : Char) : Bool :=
  c = ' ' ∨ c = '\t' ∨ c = '\n' ∨ c = '\r'

/-- JavaScript `String.prototype.trim`. -/
def trimChars (s : List Char) : List Char :=
  ((s.dropWhile isJsSpace).reverse.dropWhile isJsSpace).reverse

/-- JavaScript `String.prototype.slice(a, b)` (for `0 ≤ a ≤ b`). -/
def sliceChars (s : List Char) (a b : Nat) : List Char :=
  (s.take b).drop a

/-! ## ViewportTransform (`InfiniteCanvas.js`: `onWheel`, `zoom`,
`resetView`) -/

/-- The viewport state: screen = world * scale + offset. -/
structure Viewport where
  offsetX : ℚ
  offsetY : ℚ
  scale : ℚ
deriving DecidableEq, Repr

/-- `screen_to_world`: the inverse of the canvas transform, as computed by
the code (`(mouseX - offsetX) / scale`, `(mouseY - offsetY) / scale`). -/
def screenToWorld (v : Viewport) (sx sy : ℚ) : ℚ × ℚ :=
  ((sx - v.offsetX) / v.scale, (sy - v.offsetY) / v.scale)

/-- Scale clamping used by both zoom paths:
`Math.max(0.1, Math.min(3.0, scale * factor))`. -/
def clampScale (s : ℚ) : ℚ :=
  max (1/10) (min 3 s)

/-- The zoom step shared verbatim by `onWheel` (anchor = mouse position,
factor 0.9 or 1.1 from the wheel direction) and by the `zoom` button method
(anchor = canvas centre, arbitrary factor):
clamp the new scale, compute the anchor's world point under the old scale,
recompute it under the new scale with the old offset, and shift the offset
by the difference times the new scale. -/
def zoomAt (v : Viewport) (anchorX anchorY factor : ℚ) : Viewport :=
  let newScale := clampScale (v.scale * factor)
  let beforeX := (anchorX - v.offsetX) / v.scale
  let beforeY := (anchorY - v.offsetY) / v.scale
  let afterX := (anchorX - v.offsetX) / newScale
  let afterY := (anchorY - v.offsetY) / newScale
  { offsetX := v.offsetX + (afterX - beforeX) * newScale
    offsetY := v.offsetY + (afterY - beforeY) * newScale
    scale := newScale }

/-- `resetView` sets offset to the origin and scale to 1. -/
def resetView (_ : Viewport) : Viewport :=
  { offsetX := 0, offsetY := 0, scale := 1 }

/-! ## TextLayoutEngine: inline formatting
(`markdownParser.js`: `processInlineFormatting`)

The source collects every match of the three global regexes
`/\*\*(.*?)\*\*/g`, `/\*(.*?)\*/g` and `` /`(.*?)`/g `` (in that pattern
order), sorts the match records by start position (stable sort), and then
walks them emitting the text before each match as a `normal` segment and
the match's captured group as a styled segment, moving `currentIndex` to
the match's end — even when that moves it backwards. -/

/-- Inline segment style. -/
inductive SegType
  | normal
  | bold
  | italic
  | code
deriving DecidableEq, Repr

/-- A styled segment `{text, type}`. -/
structure Seg where
  text : List Char
  type : SegType
deriving DecidableEq, Repr

/-- A regex match record `{start, end, content, type}` (`fullMatch` is
never read afterwards and is omitted). -/
structure InlineMatch where
  start : Nat
  stop : Nat
  content : List Char
  type : SegType
deriving DecidableEq, Repr

/-- First index `i ≥ base` (into the original string) such that characters
`i` and `i+1` both equal `c`; the list argument is the suffix starting at
`base`. -/
def findPairAux (c : Char) : List Char → Nat → Option Nat
  | a :: b :: rest, i => if a = c ∧ b = c then some i else findPairAux c (b :: rest) (i + 1)
  | _, _ => none

/-- First index `i ≥ base` with character `i` equal to `c`. -/
def findSingleAux (c : Char) : List Char → Nat → Option Nat
  | a :: rest, i => if a = c then some i else findSingleAux c rest (i + 1)
  | [], _ => none

def findPairFrom (c : Char) (s : List Char) (base : Nat) : Option Nat :=
  findPairAux c (s.drop base) base

def findSingleFrom (c : Char) (s : List Char) (base : Nat) : Option Nat :=
  findSingleAux c (s.drop base) base

/-- All matches of the lazy double-delimiter pattern `cc(.*?)cc` (the JS
global-regex `exec` loop): the opening pair is the earliest pair at or
after the scan position, the lazy group ends at the next pair, and
scanning resumes after the closing pair.  (If the earliest opening pair
has no closing pair there is no match in the remainder: any later pair
would itself have served as the closing pair.)  `fuel` only bounds the
recursion; `s.length + 1` always suffices because each found match
advances the scan position by at least 4. -/
def scanPairMatches (c : Char) (ty : SegType) (s : List Char) :
    Nat → Nat → List InlineMatch
  | _, 0 => []
  | pos, fuel + 1 =>
    match findPairFrom c s pos with
    | none => []
    | some i =>
      match findPairFrom c s (i + 2) with
      | none => []
      | some j =>
        ⟨i, j + 2, sliceChars s (i + 2) j, ty⟩ :: scanPairMatches c ty s (j + 2) fuel

/-- All matches of the lazy single-delimiter pattern `c(.*?)c`. -/
def scanSingleMatches (c : Char) (ty : SegType) (s : List Char) :
    Nat → Nat → List InlineMatch
  | _, 0 => []
  | pos, fuel + 1 =>
    match findSingleFrom c s pos with
    | none => []
    | some i =>
      match findSingleFrom c s (i + 1) with
      | none => []
      | some j =>
        ⟨i, j + 1, sliceChars s (i + 1) j, ty⟩ :: scanSingleMatches c ty s (j + 1) fuel

/-- Stable insertion by start position (`matches.sort((a, b) => a.start -
b.start)`; JS `Array.prototype.sort` is stable). -/
def insertByStart (m : InlineMatch) : List InlineMatch → List InlineMatch
  | [] => [m]
  | x :: xs => if x.start ≤ m.start then x :: insertByStart m xs else m :: x :: xs

def sortByStart (l : List InlineMatch) : List InlineMatch :=
  l.foldl (fun acc m => insertByStart m acc) []

/-- The segment-emission walk over the sorted matches: text before each
match (when the running index is still before the match) becomes a
`normal` segment; the match's content becomes a styled segment; the
running index jumps to the match's end. -/
def buildSegments (s : List Char) (ms : List InlineMatch) : List Seg :=
  let step := fun (acc : Nat × List Seg) (m : InlineMatch) =>
    let segs :=
      if acc.1 < m.start ∧ sliceChars s acc.1 m.start ≠ [] then
        acc.2 ++ [⟨sliceChars s acc.1 m.start, SegType.normal⟩]
      else acc.2
    (m.stop, segs ++ [⟨m.content, m.type⟩])
  let p := ms.foldl step (0, [])
  let segs :=
    if p.1 < s.length ∧ sliceChars s p.1 s.length ≠ [] then
      p.2 ++ [⟨sliceChars s p.1 s.length, SegType.normal⟩]
    else p.2
  if segs = [] then [⟨s, SegType.normal⟩] else segs

/-- `processInlineFormatting(text)`: bold, italic and code matches are
collected in pattern order, stably sorted by start position, and emitted. -/
def processInlineFormatting (s : List Char) : List Seg :=
  let ms :=
    scanPairMatches '*' SegType.bold s 0 (s.length + 1) ++
    scanSingleMatches '*' SegType.italic s 0 (s.length + 1) ++
    scanSingleMatches '`' SegType.code s 0 (s.length + 1)
  buildSegments s (sortByStart ms)

/-! ## TextLayoutEngine: block parsing and height
(`markdownParser.js`: `parseMarkdown`, `wrapTextForMarkdown`,
`calculateMarkdownHeight`) -/

/-- Block kinds (`item.type`). -/
inductive BlockKind
  | header
  | list
  | text
  | spacing
deriving DecidableEq, Repr

/-- Block content: headers and spacing carry a plain string, list/text
blocks carry the segments produced by `processInlineFormatting`. -/
inductive BContent
  | plain (s : List Char)
  | rich (segs : List Seg)
deriving DecidableEq, Repr

/-- A parsed block (`{type, content, fontSize, fontWeight, fontStyle,
level?, bullet?}`). -/
structure Block where
  kind : BlockKind
  content : BContent
  fontSize : ℚ
  fontWeight : String
  fontStyle : String
  level : Option Nat
  bullet : Option Char
deriving DecidableEq, Repr

/-- The default block returned for empty / block-free input:
`{type: 'text', content: '', fontSize: 14, ...}`. -/
def defaultTextBlock : Block :=
  ⟨BlockKind.text, BContent.plain [], 14, "normal", "normal", none, none⟩

/-- Classification of one non-blank trimmed line. -/
def classifyLine (tl : List Char) : Block :=
  if ("### ".toList).isPrefixOf tl then
    ⟨BlockKind.header, BContent.plain (tl.drop 4), 16, "bold", "normal", some 3, none⟩
  else if ("## ".toList).isPrefixOf tl then
    ⟨BlockKind.header, BContent.plain (tl.drop 3), 18, "bold", "normal", some 2, none⟩
  else if ("# ".toList).isPrefixOf tl then
    ⟨BlockKind.header, BContent.plain (tl.drop 2), 20, "bold", "normal", some 1, none⟩
  else if ("- ".toList).isPrefixOf tl ∨ ("* ".toList).isPrefixOf tl then
    ⟨BlockKind.list, BContent.rich (processInlineFormatting (tl.drop 2)), 14,
      "normal", "normal", none, some '•'⟩
  else
    ⟨BlockKind.text, BContent.rich (processInlineFormatting tl), 14,
      "normal", "normal", none, none⟩

/-- The per-line walk: a blank (after trimming) line becomes a spacing
block except on the last line (`index < lines.length - 1`). -/
def parseLines : List (List Char) → List Block
  | [] => []
  | [l] =>
    if trimChars l = [] then [] else [classifyLine (trimChars l)]
  | l :: rest =>
    (if trimChars l = [] then
      [⟨BlockKind.spacing, BContent.plain [], 8, "normal", "normal", none, none⟩]
    else [classifyLine (trimChars l)]) ++ parseLines rest

/-- `parseMarkdown(text)`. -/
def parseMarkdown (t : List Char) : List Block :=
  if t = [] then [defaultTextBlock]
  else
    let parsed := parseLines (splitOnChar '\n' t)
    if parsed = [] then [defaultTextBlock] else parsed

/-- A canvas font assignment `ctx.font = "<weight> <style> <size>px
<family>"`, modelled as a record instead of the interpolated string. -/
structure FontSpec where
  weight : String
  style : String
  size : ℚ
  family : String
deriving DecidableEq, Repr

/-- The font set for measuring a block:
`` `${item.fontWeight} ${item.fontStyle} ${item.fontSize}px Arial` ``. -/
def itemFont (b : Block) : FontSpec :=
  ⟨b.fontWeight, b.fontStyle, b.fontSize, "Arial"⟩

/-- A text-measurement oracle: the width the drawing surface reports for a
string under a font.  The code never assumes anything about it beyond
re-setting `ctx.font` before each measurement. -/
def Measure : Type := FontSpec → List Char → ℚ

/-- `wrapTextForMarkdown(ctx, text, maxWidth, item)`: greedy word wrap of
the space-separated words under the block's font; lists reserve 20 units
for the bullet; an accumulated line is flushed when the test line
overflows and the current line is non-empty. -/
def wrapTextForMarkdown (measure : Measure) (text : List Char)
    (maxWidth : ℚ) (item : Block) : List (List Char) :=
  if text = [] then [[]]
  else
    let font := itemFont item
    let words := splitOnChar ' ' text
    let effW := if item.kind = BlockKind.list then maxWidth - 20 else maxWidth
    let p := words.foldl
      (fun (acc : List (List Char) × List Char) word =>
        let testLine := acc.2 ++ (if acc.2 = [] then [] else [' ']) ++ word
        if effW < measure font testLine ∧ acc.2 ≠ [] then
          (acc.1 ++ [acc.2], word)
        else (acc.1, testLine))
      ([], [])
    let lines := if p.2 = [] then p.1 else p.1 ++ [p.2]
    if lines = [] then [[]] else lines

/-- Margin configuration `{top, bottom, left, right}` (the callers of
`calculateMarkdownHeight` in this slice always pass the object form). -/
structure Margins where
  top : ℚ
  bottom : ℚ
  left : ℚ
  right : ℚ
deriving DecidableEq, Repr

/-- Per-block line height: font size plus 8 for headers, 6 for lists, 4
otherwise. -/
def lineHeightOf (b : Block) : ℚ :=
  if b.kind = BlockKind.header then b.fontSize + 8
  else if b.kind = BlockKind.list then b.fontSize + 6
  else b.fontSize + 4

/-- The text a block is measured with: rich content is flattened by
joining the segment texts (`content.map(s => s.text).join('')`). -/
def fullTextOf (b : Block) : List Char :=
  match b.content with
  | BContent.plain s => s
  | BContent.rich segs => (segs.map Seg.text).flatten

/-- `calculateMarkdownHeight(ctx, text, maxWidth, margins)`: start from the
top margin, add each block's wrapped-line count times its line height
(spacing blocks add their font size), add the bottom margin, floor at 40. -/
def calculateMarkdownHeight (measure : Measure) (text : List Char)
    (maxWidth : ℚ) (m : Margins) : ℚ :=
  let parsed := parseMarkdown text
  let total := parsed.foldl
    (fun acc item =>
      if item.kind = BlockKind.spacing then acc + item.fontSize
      else
        acc + ((wrapTextForMarkdown measure (fullTextOf item)
            (maxWidth - m.left - m.right) item).length : ℚ) * lineHeightOf item)
    m.top
  max 40 (total + m.bottom)

/-! ## Renderer-side wrapping
(`markdownRenderer.js`: `wrapTextForRendering`, `getFontForSegment`,
`renderInlineFormattedText`) -/

/-- `wrapTextForRendering(ctx, text, maxWidth)`: the renderer's greedy wrap
for plain (string-content) blocks.  It measures under whatever font the
caller has set, so the measurement oracle arrives already specialised to a
font. -/
def wrapTextForRendering (measureLine : List Char → ℚ) (text : List Char)
    (maxWidth : ℚ) : List (List Char) :=
  if text = [] then [[]]
  else
    let words := splitOnChar ' ' text
    let p := words.foldl
      (fun (acc : List (List Char) × List Char) word =>
        let testLine := acc.2 ++ (if acc.2 = [] then [] else [' ']) ++ word
        if maxWidth < measureLine testLine ∧ acc.2 ≠ [] then
          (acc.1 ++ [acc.2], word)
        else (acc.1, testLine))
      ([], [])
    let lines := if p.2 = [] then p.1 else p.1 ++ [p.2]
    if lines = [] then [[]] else lines

/-- `getFontForSegment(segment, baseFontSize)`. -/
def getFontForSegment (seg : Seg) (baseFontSize : ℚ) : FontSpec :=
  match seg.type with
  | SegType.bold => ⟨"bold", "normal", baseFontSize, "Arial"⟩
  | SegType.italic => ⟨"normal", "italic", baseFontSize, "Arial"⟩
  | SegType.code => ⟨"normal", "normal", baseFontSize, "Monaco, Consolas, monospace"⟩
  | SegType.normal => ⟨"normal", "normal", baseFontSize, "Arial"⟩

/-- The inner greedy word collector of `renderInlineFormattedText`'s
word-break branch: accumulate words of an over-long segment while the test
line fits; returns how many words were taken and the remaining words. -/
def collectWords (measureW : List Char → ℚ) (effW : ℚ) :
    List (List Char) → List Char → Nat × List (List Char)
  | [], _ => (0, [])
  | w :: ws, testLine =>
    let testWord := testLine ++ (if testLine = [] then [] else [' ']) ++ w
    if measureW testWord ≤ effW then
      let p := collectWords measureW effW ws testWord
      (p.1 + 1, p.2)
    else (0, w :: ws)

/-- The outer word loop of the word-break branch: each iteration emits one
rendered line (either the collected words or a single forced over-wide
word) while vertical space remains.  `fuel ≥ words.length + 1` always
suffices: every iteration consumes at least one word. -/
def wordBreakLoop (measureW : List Char → ℚ) (effW lh maxY : ℚ) :
    Nat → List (List Char) → ℚ → ℚ
  | 0, _, y => y
  | _ + 1, [], y => y
  | fuel + 1, w :: ws, y =>
    if maxY < y + lh then y
    else
      let p := collectWords measureW effW (w :: ws) []
      if p.1 = 0 then wordBreakLoop measureW effW lh maxY fuel ws (y + lh)
      else wordBreakLoop measureW effW lh maxY fuel p.2 (y + lh)

/-- The segment loop of `renderInlineFormattedText`: try to fit each
segment (measured under its own font, prepended to the accumulated line
text) on the current line; flush the line when it does not fit; an
over-long segment on an empty line is word-broken.  A trailing non-empty
line is emitted if vertical space remains.  `fuel ≥ 2 * segs.length + 1`
always suffices: each step either consumes a segment or empties a
non-empty line text. -/
def segLoop (measure : Measure) (baseFontSize : ℚ) (effW lh maxY : ℚ) :
    Nat → List Seg → List Char → ℚ → ℚ
  | 0, _, _, y => y
  | _ + 1, [], lineText, y =>
    if lineText ≠ [] ∧ y + lh ≤ maxY then y + lh else y
  | fuel + 1, seg :: rest, lineText, y =>
    if maxY < y + lh then y
    else
      let testText := lineText ++ seg.text
      if measure (getFontForSegment seg baseFontSize) testText ≤ effW then
        segLoop measure baseFontSize effW lh maxY fuel rest testText y
      else if lineText ≠ [] then
        segLoop measure baseFontSize effW lh maxY fuel (seg :: rest) [] (y + lh)
      else
        let y' := wordBreakLoop
          (measure (getFontForSegment seg baseFontSize)) effW lh maxY
          (splitOnChar ' ' seg.text).length.succ (splitOnChar ' ' seg.text) y
        segLoop measure baseFontSize effW lh maxY fuel rest [] y'

/-- `renderInlineFormattedText(ctx, item, x, y, maxWidth, padding,
lineHeight, maxY)` restricted to its effect on the vertical cursor (the
drawing calls have no further state effect): returns the `currentY` after
rendering the block's segments. -/
def renderInlineFormattedText (measure : Measure) (item : Block)
    (segs : List Seg) (y maxWidth padding lh maxY : ℚ) : ℚ :=
  let effW := maxWidth - padding - (if item.kind = BlockKind.list then 20 else 0)
  segLoop measure item.fontSize effW lh maxY (2 * segs.length + 1) segs [] y

/-! ## NodeGraph, HistoryManager and InteractionController
(`InfiniteCanvas.js`) -/

/-- A node (`{id, text, x, y, width, height, isSelected, generatedByModel}`;
`manuallyResized` is absent at creation, i.e. falsy, and is set by
resizing). -/
structure Node where
  id : Nat
  text : List Char
  x : ℚ
  y : ℚ
  width : ℚ
  height : ℚ
  isSelected : Bool
  manuallyResized : Bool
  generatedByModel : Option (List Char)
deriving DecidableEq, Repr

/-- A connection (`{id, from, to}`; `from` is a Lean keyword, hence
`fromId`/`toId`). -/
structure Conn where
  id : Nat
  fromId : Nat
  toId : Nat
deriving DecidableEq, Repr

/-- A history snapshot: the deep copy `{nodes, connections}`. -/
abbrev Snapshot : Type := List Node × List Conn

/-- `this.dragTarget`: `null`, `'canvas'`, `'selectedNodes'` or a node
(modelled by its id). -/
inductive DragTarget
  | null
  | canvas
  | selNodes
  | node (id : Nat)
deriving DecidableEq, Repr

/-- The 8 resize handles. -/
inductive Handle
  | top
  | bottom
  | left
  | right
  | topLeft
  | topRight
  | bottomLeft
  | bottomRight
deriving DecidableEq, Repr

/-- The mutable state of the `InfiniteCanvas` instance (the fields the
embedded methods read or write). -/
structure CState where
  nodes : List Node
  connections : List Conn
  selectedNodeIds : List Nat
  offsetX : ℚ
  offsetY : ℚ
  scale : ℚ
  canvasW : ℚ
  canvasH : ℚ
  isDragging : Bool
  dragStartX : ℚ
  dragStartY : ℚ
  dragTarget : DragTarget
  isConnecting : Bool
  connectionStart : Option Nat
  isResizing : Bool
  resizeHandle : Option Handle
  resizeTarget : Option Nat
  isSelecting : Bool
  selectionStartX : ℚ
  selectionStartY : ℚ
  selectionEndX : ℚ
  selectionEndY : ℚ
  isPanning : Bool
  spacePressed : Bool
  editingNode : Option Nat
  editText : Option (List Char)
  lastMouseX : ℚ
  lastMouseY : ℚ
  history : List Snapshot
  historyIndex : Int
deriving DecidableEq

/-- `this.maxHistorySize`. -/
def maxHistorySize : Nat := 50

def snapshotOf (s : CState) : Snapshot := (s.nodes, s.connections)

/-- The pure history/index effect of `saveState()`: truncate the redo
branch when the index is not at the end (`history.slice(0, historyIndex +
1)`), push the snapshot, then either evict the oldest entry (`shift()`,
when over the size bound, without advancing the index) or advance the
index. -/
def saveHistStep (hist : List Snapshot) (idx : Int) (snap : Snapshot) :
    List Snapshot × Int :=
  let hist1 := if idx < (hist.length : Int) - 1 then hist.take (idx + 1).toNat else hist
  let hist2 := hist1 ++ [snap]
  if maxHistorySize < hist2.length then (hist2.drop 1, idx) else (hist2, idx + 1)

/-- `saveState()`: apply `saveHistStep` to the current graph snapshot. -/
def saveState (s : CState) : CState :=
  { s with
    history := (saveHistStep s.history s.historyIndex (snapshotOf s)).1,
    historyIndex := (saveHistStep s.history s.historyIndex (snapshotOf s)).2 }

/-- `clearSelection()`. -/
def clearSelection (s : CState) : CState :=
  { s with nodes := s.nodes.map (fun n => { n with isSelected := false }),
           selectedNodeIds := [] }

/-- `restoreState(state)`: replace nodes and connections by the snapshot,
then clear the selection (which also resets the restored nodes' selected
flags). -/
def restoreState (s : CState) (snap : Snapshot) : CState :=
  clearSelection { s with nodes := snap.1, connections := snap.2 }

/-- `undo()`: a no-op unless `historyIndex > 0`. -/
def undo (s : CState) : CState :=
  if 0 < s.historyIndex then
    let idx := s.historyIndex - 1
    restoreState { s with historyIndex := idx } (s.history.getD idx.toNat ([], []))
  else s

/-- `redo()`: a no-op unless `historyIndex < history.length - 1`. -/
def redo (s : CState) : CState :=
  if s.historyIndex < (s.history.length : Int) - 1 then
    let idx := s.historyIndex + 1
    restoreState { s with historyIndex := idx } (s.history.getD idx.toNat ([], []))
  else s

/-- `selectNodes(nodes)` (array case): clear, then mark and record each
given node. -/
def selectNodes (s : CState) (ids : List Nat) : CState :=
  let sc := clearSelection s
  { sc with
    nodes := sc.nodes.map (fun n =>
      if ids.contains n.id then { n with isSelected := true } else n),
    selectedNodeIds := ids }

/-- `selectNode(node)`. -/
def selectNode (s : CState) (nid : Nat) : CState :=
  selectNodes s [nid]

/-- `addToSelection(node)`. -/
def addToSelection (s : CState) (nid : Nat) : CState :=
  if s.selectedNodeIds.contains nid then s
  else
    { s with
      nodes := s.nodes.map (fun n =>
        if n.id = nid then { n with isSelected := true } else n),
      selectedNodeIds := s.selectedNodeIds ++ [nid] }

/-- `removeFromSelection(node)`. -/
def removeFromSelection (s : CState) (nid : Nat) : CState :=
  { s with
    nodes := s.nodes.map (fun n =>
      if n.id = nid then { n with isSelected := false } else n),
    selectedNodeIds := s.selectedNodeIds.erase nid }

/-- `createNode(text, x, y, generatedByModel)`; `freshId` stands for
`Date.now() + Math.random()`.  Null coordinates default to the canvas
centre shifted by the offset. -/
def createNode (s : CState) (freshId : Nat) (text : List Char)
    (x? y? : Option ℚ) (genBy : Option (List Char)) : CState :=
  let s' := saveState s
  let node : Node :=
    { id := freshId, text := text,
      x := x?.getD (s.canvasW / 2 - s.offsetX),
      y := y?.getD (s.canvasH / 2 - s.offsetY),
      width := 400, height := 60, isSelected := false,
      manuallyResized := false, generatedByModel := genBy }
  { s' with nodes := s'.nodes ++ [node] }

/-- `createConnection(fromNode, toNode)`: skip when a connection between
the two ids already exists in either direction, otherwise snapshot and
append. -/
def createConnection (s : CState) (fromId toId freshId : Nat) : CState :=
  if s.connections.any (fun c =>
      (c.fromId == fromId && c.toId == toId) ||
      (c.fromId == toId && c.toId == fromId)) then s
  else
    let s' := saveState s
    { s' with connections := s'.connections ++ [⟨freshId, fromId, toId⟩] }

/-- `deleteNode(node)`: locate by id, snapshot, remove the node and every
incident connection, clear the selection. -/
def deleteNode (s : CState) (nodeId : Nat) : CState :=
  match s.nodes.findIdx? (fun n => n.id == nodeId) with
  | none => s
  | some i =>
    let s' := saveState s
    clearSelection
      { s' with
        nodes := s'.nodes.eraseIdx i,
        connections := s'.connections.filter (fun c =>
          c.fromId != nodeId && c.toId != nodeId) }

/-- `deleteSelectedNodes()`. -/
def deleteSelectedNodes (s : CState) : CState :=
  if s.selectedNodeIds.length = 0 then s
  else
    let s' := saveState s
    let ids := s'.selectedNodeIds
    clearSelection
      { s' with
        nodes := s'.nodes.filter (fun n => !(ids.contains n.id)),
        connections := s'.connections.filter (fun c =>
          !(ids.contains c.fromId) && !(ids.contains c.toId)) }

/-- The margins `finishEditingNode` passes to `calculateMarkdownHeight`. -/
def editMargins : Margins := ⟨20, 12, 12, 12⟩

/-- `finishEditingNode()`: when a node is being edited, snapshot, commit
the input text, and (unless manually resized) recompute the height from
the markdown layout. -/
def finishEditingNode (s : CState) (measure : Measure) : CState :=
  match s.editingNode, s.editText with
  | some nid, some txt =>
    let s' := saveState s
    let s'' :=
      { s' with
        nodes := s'.nodes.map (fun (n : Node) =>
          if n.id = nid then
            let n1 := { n with text := txt }
            if ¬ n1.manuallyResized then
              { n1 with
                height := max 40
                  (calculateMarkdownHeight measure txt n1.width editMargins) }
            else n1
          else n) }
    { s'' with editingNode := none, editText := none }
  | _, _ => s

/-- The shape of an imported JSON document after the `Array.isArray`
validations have passed. -/
structure ImportData where
  nodes : List Node
  connections : List Conn
  offsetX : Option ℚ
  offsetY : Option ℚ
  scale : Option ℚ

/-- `loadCanvasData(data)`: snapshot, replace nodes and connections, set
each view field that the document provides as a number — without any scale
clamping.  The statement that follows (`this.selectedNode = null`) assigns
to a getter-only accessor and throws a `TypeError` in the class's strict
mode, which the surrounding `catch` turns into an error notification, so
the subsequent validation/persistence steps never run; the mutations above
remain applied. -/
def loadCanvasData (s : CState) (d : ImportData) : CState :=
  let s1 := saveState s
  let s2 := { s1 with nodes := d.nodes, connections := d.connections }
  let s3 := match d.offsetX with | some v => { s2 with offsetX := v } | none => s2
  let s4 := match d.offsetY with | some v => { s3 with offsetY := v } | none => s3
  match d.scale with | some v => { s4 with scale := v } | none => s4

/-- The persisted document shape (absent fields are `undefined`). -/
structure StoredData where
  nodes : Option (List Node)
  connections : Option (List Conn)
  offsetX : Option ℚ
  offsetY : Option ℚ
  scale : Option ℚ

/-- `loadFromLocalStorage()`: with a stored document, replace the graph
and view; `data.scale || 1.0` maps a falsy (0) scale to 1 and keeps any
other number unclamped; `data.offsetX || 0` is the identity on numbers. -/
def loadFromLocalStorage (s : CState) (saved : Option StoredData) : CState :=
  match saved with
  | none => s
  | some d =>
    { s with
      nodes := d.nodes.getD [],
      connections := d.connections.getD [],
      offsetX := match d.offsetX with | none => 0 | some v => if v = 0 then 0 else v,
      offsetY := match d.offsetY with | none => 0 | some v => if v = 0 then 0 else v,
      scale := match d.scale with | none => 1 | some v => if v = 0 then 1 else v }

/-! ### Hit testing and resize-zone classification -/

/-- AABB containment (`getNodeAtPoint`'s test). -/
def containsPoint (n : Node) (x y : ℚ) : Bool :=
  decide (n.x ≤ x ∧ x ≤ n.x + n.width ∧ n.y ≤ y ∧ y ≤ n.y + n.height)

/-- `getNodeAtPoint(x, y)`: scan in reverse creation order; the
most-recently created containing node wins. -/
def getNodeAtPoint (nodes : List Node) (x y : ℚ) : Option Node :=
  nodes.reverse.find? (fun n => containsPoint n x y)

/-- `getResizeHandle(node, x, y)`: the three drawn handles (right, bottom,
bottom-right), with `handleSize = 12` and `tolerance = 8`. -/
def getResizeHandle (n : Node) (x y : ℚ) : Option Handle :=
  if |x - (n.x + n.width)| < 8 ∧ |y - (n.y + n.height / 2)| < 6 + 8 then
    some Handle.right
  else if |x - (n.x + n.width / 2)| < 6 + 8 ∧ |y - (n.y + n.height)| < 8 then
    some Handle.bottom
  else if |x - (n.x + n.width)| < 8 ∧ |y - (n.y + n.height)| < 8 then
    some Handle.bottomRight
  else none

/-- `getBorderResizeHandle(node, x, y)`: 8-zone border classification with
`borderTolerance = 8` and `cornerSize = 20`; corners take priority. -/
def getBorderResizeHandle (n : Node) (x y : ℚ) : Option Handle :=
  let nodeLeft := n.x
  let nodeRight := n.x + n.width
  let nodeTop := n.y
  let nodeBottom := n.y + n.height
  let nearLeft := |x - nodeLeft| ≤ 8
  let nearRight := |x - nodeRight| ≤ 8
  let nearTop := |y - nodeTop| ≤ 8
  let nearBottom := |y - nodeBottom| ≤ 8
  let withinH := nodeLeft - 8 ≤ x ∧ x ≤ nodeRight + 8
  let withinV := nodeTop - 8 ≤ y ∧ y ≤ nodeBottom + 8
  if nearTop ∧ nearLeft ∧ nodeLeft - 8 ≤ x ∧ x ≤ nodeLeft + 20 ∧
      nodeTop - 8 ≤ y ∧ y ≤ nodeTop + 20 then some Handle.topLeft
  else if nearTop ∧ nearRight ∧ nodeRight - 20 ≤ x ∧ x ≤ nodeRight + 8 ∧
      nodeTop - 8 ≤ y ∧ y ≤ nodeTop + 20 then some Handle.topRight
  else if nearBottom ∧ nearLeft ∧ nodeLeft - 8 ≤ x ∧ x ≤ nodeLeft + 20 ∧
      nodeBottom - 20 ≤ y ∧ y ≤ nodeBottom + 8 then some Handle.bottomLeft
  else if nearBottom ∧ nearRight ∧ nodeRight - 20 ≤ x ∧ x ≤ nodeRight + 8 ∧
      nodeBottom - 20 ≤ y ∧ y ≤ nodeBottom + 8 then some Handle.bottomRight
  else if nearTop ∧ withinH ∧ nodeLeft + 20 < x ∧ x < nodeRight - 20 then
    some Handle.top
  else if nearBottom ∧ withinH ∧ nodeLeft + 20 < x ∧ x < nodeRight - 20 then
    some Handle.bottom
  else if nearLeft ∧ withinV ∧ nodeTop + 20 < y ∧ y < nodeBottom - 20 then
    some Handle.left
  else if nearRight ∧ withinV ∧ nodeTop + 20 < y ∧ y < nodeBottom - 20 then
    some Handle.right
  else none

/-! ### The resize step (`onMouseMove`, `isResizing` branch) -/

/-- One resize move applied to the target node, for scaled deltas
`(sdx, sdy)`; `minWidth = 60`, `minHeight = 40`.  The target is first
marked as manually resized, then the geometry of the active handle is
updated with clamped minimums (the guarded handles leave the geometry
unchanged when the clamp would be violated, exactly as the source). -/
def resizeNodeStep (h : Handle) (sdx sdy : ℚ) (n0 : Node) : Node :=
  let n := { n0 with manuallyResized := true }
  match h with
  | Handle.top =>
    let newHeightTop := n.height - sdy
    if 40 ≤ newHeightTop then { n with y := n.y + sdy, height := newHeightTop }
    else n
  | Handle.bottom => { n with height := max 40 (n.height + sdy) }
  | Handle.left =>
    let newWidthLeft := n.width - sdx
    if 60 ≤ newWidthLeft then { n with x := n.x + sdx, width := newWidthLeft }
    else n
  | Handle.right => { n with width := max 60 (n.width + sdx) }
  | Handle.topLeft =>
    let newW := n.width - sdx
    let newH := n.height - sdy
    if 60 ≤ newW ∧ 40 ≤ newH then
      { n with x := n.x + sdx, y := n.y + sdy, width := newW, height := newH }
    else n
  | Handle.topRight =>
    let newH := n.height - sdy
    let n1 := if 40 ≤ newH then { n with y := n.y + sdy, height := newH } else n
    { n1 with width := max 60 (n1.width + sdx) }
  | Handle.bottomLeft =>
    let newW := n.width - sdx
    let n1 := if 60 ≤ newW then { n with x := n.x + sdx, width := newW } else n
    { n1 with height := max 40 (n1.height + sdy) }
  | Handle.bottomRight =>
    { n with width := max 60 (n.width + sdx), height := max 40 (n.height + sdy) }

/-! ### Mouse handlers -/

/-- A pointer event after the `getBoundingClientRect` adjustment. -/
structure MouseEv where
  button : Nat
  ctrlKey : Bool
  metaKey : Bool
  x : ℚ
  y : ℚ
deriving DecidableEq, Repr

/-- Reads the current selected flag of the node with the given id
(JS reads `clickedNode.isSelected` on the live object). -/
def isSelectedId (s : CState) (nid : Nat) : Bool :=
  (s.nodes.find? (fun n => n.id == nid)).elim false Node.isSelected

/-- The border-resize press branch of `onMouseDown`: select the target if
needed, then enter the resizing state. -/
def mdBorderResize (s : CState) (nd : Node) (h : Handle) : CState :=
  let s1 :=
    if 1 < s.selectedNodeIds.length then selectNode s nd.id
    else if ¬ nd.isSelected then selectNode s nd.id
    else s
  { s1 with isResizing := true, resizeHandle := some h,
            resizeTarget := some nd.id }

/-- The node-body press branch of `onMouseDown`: update the selection per
the modifier, then enter resize / connect / drag as the source does. -/
def mdNodeBody (s : CState) (e : MouseEv) (nd : Node) (cx cy : ℚ) : CState :=
  let s1 :=
    if e.ctrlKey ∨ e.metaKey then
      if nd.isSelected then removeFromSelection s nd.id
      else addToSelection s nd.id
    else if ¬ nd.isSelected then selectNode s nd.id
    else s
  if s1.selectedNodeIds.length = 1 ∧ isSelectedId s1 nd.id then
    match getResizeHandle nd cx cy with
    | some h =>
      { s1 with isResizing := true, resizeHandle := some h,
                resizeTarget := some nd.id }
    | none =>
      if e.ctrlKey ∨ e.metaKey then
        { s1 with isConnecting := true, connectionStart := some nd.id }
      else
        { s1 with dragTarget :=
            if 1 < s1.selectedNodeIds.length then DragTarget.selNodes
            else DragTarget.node nd.id }
  else if ¬ (e.ctrlKey ∨ e.metaKey) then
    { s1 with dragTarget :=
        if 1 < s1.selectedNodeIds.length then DragTarget.selNodes
        else DragTarget.node nd.id }
  else s1

/-- The empty-space press branch of `onMouseDown`: clear the selection
(without modifier) and start the marquee (unless space is held). -/
def mdEmpty (s : CState) (e : MouseEv) (cx cy : ℚ) : CState :=
  let s1 := if ¬ (e.ctrlKey ∨ e.metaKey) then clearSelection s else s
  if ¬ s.spacePressed then
    { s1 with isSelecting := true,
              selectionStartX := cx, selectionStartY := cy,
              selectionEndX := cx, selectionEndY := cy }
  else s1

/-- `onMouseDown(e)` (the cursor updates have no state effect and are
omitted). -/
def onMouseDown (s0 : CState) (e : MouseEv) : CState :=
  let s := { s0 with lastMouseX := e.x, lastMouseY := e.y }
  let canvasX := (e.x - s.offsetX) / s.scale
  let canvasY := (e.y - s.offsetY) / s.scale
  if e.button = 2 ∨ (e.button = 0 ∧ s.spacePressed) then
    { s with isPanning := true, isDragging := true,
             dragStartX := e.x, dragStartY := e.y,
             dragTarget := DragTarget.canvas }
  else if e.button ≠ 0 then s
  else
    let afterBranch :=
      match getNodeAtPoint s.nodes canvasX canvasY with
      | some nd =>
        match getBorderResizeHandle nd canvasX canvasY with
        | some h => mdBorderResize s nd h
        | none => mdNodeBody s e nd canvasX canvasY
      | none => mdEmpty s e canvasX canvasY
    if ¬ afterBranch.isConnecting ∧ ¬ afterBranch.isResizing ∧
        ¬ afterBranch.isSelecting then
      { afterBranch with isDragging := true,
                         dragStartX := e.x, dragStartY := e.y }
    else afterBranch

/-- `onMouseMove(e)` (cursor updates and redraws omitted; a resizing state
always carries a target and a handle — the source would throw otherwise). -/
def onMouseMove (s0 : CState) (e : MouseEv) : CState :=
  let s := { s0 with lastMouseX := e.x, lastMouseY := e.y }
  let canvasX := (e.x - s.offsetX) / s.scale
  let canvasY := (e.y - s.offsetY) / s.scale
  if s.isSelecting then
    { s with selectionEndX := canvasX, selectionEndY := canvasY }
  else if s.isConnecting then s
  else if s.isResizing then
    let deltaX := e.x - s.dragStartX
    let deltaY := e.y - s.dragStartY
    let sdx := deltaX / s.scale
    let sdy := deltaY / s.scale
    match s.resizeTarget, s.resizeHandle with
    | some tid, some h =>
      { s with
        nodes := s.nodes.map (fun n =>
          if n.id = tid then resizeNodeStep h sdx sdy n else n),
        dragStartX := e.x, dragStartY := e.y }
    | _, _ => s
  else if ¬ s.isDragging then s
  else
    let deltaX := e.x - s.dragStartX
    let deltaY := e.y - s.dragStartY
    let s1 :=
      match s.dragTarget with
      | DragTarget.canvas =>
        { s with offsetX := s.offsetX + deltaX, offsetY := s.offsetY + deltaY }
      | DragTarget.selNodes =>
        { s with nodes := s.nodes.map (fun (n : Node) =>
            if s.selectedNodeIds.contains n.id then
              { n with x := n.x + deltaX / s.scale, y := n.y + deltaY / s.scale }
            else n) }
      | DragTarget.node tid =>
        { s with nodes := s.nodes.map (fun (n : Node) =>
            if n.id = tid then
              { n with x := n.x + deltaX / s.scale, y := n.y + deltaY / s.scale }
            else n) }
      | DragTarget.null => s
    { s1 with dragStartX := e.x, dragStartY := e.y }

/-- `onMouseUp(e)`; `freshId` stands for the id a completed connection
would get. -/
def onMouseUp (s : CState) (e : MouseEv) (freshId : Nat) : CState :=
  if s.isSelecting then
    let rx := min s.selectionStartX s.selectionEndX
    let ry := min s.selectionStartY s.selectionEndY
    let rw := |s.selectionEndX - s.selectionStartX|
    let rh := |s.selectionEndY - s.selectionStartY|
    let inSel := s.nodes.filter (fun n =>
      decide (n.x < rx + rw ∧ rx < n.x + n.width ∧
              n.y < ry + rh ∧ ry < n.y + n.height))
    let s1 := { s with isSelecting := false }
    if e.ctrlKey ∨ e.metaKey then
      inSel.foldl (fun acc n => addToSelection acc n.id) s1
    else
      selectNodes s1 (inSel.map Node.id)
  else if s.isConnecting then
    let canvasX := (e.x - s.offsetX) / s.scale
    let canvasY := (e.y - s.offsetY) / s.scale
    let s1 :=
      match getNodeAtPoint s.nodes canvasX canvasY, s.connectionStart with
      | some t, some cs => if t.id ≠ cs then createConnection s cs t.id freshId else s
      | _, _ => s
    { s1 with isConnecting := false, connectionStart := none }
  else if s.isResizing then
    { s with isResizing := false, resizeHandle := none, resizeTarget := none }
  else
    { s with isDragging := false, isPanning := false,
             dragTarget := DragTarget.null }

/-! ### Specification-side definition for the height claim -/

/-- The height formula as the specification words it (for the refinement
claim about `calculateMarkdownHeight`): the sum over all blocks of
(wrapped-line count × the block's line height, spacing blocks contributing
their font size), plus the top and bottom margins, floored at 40. -/
def totalHeightSpec (measure : Measure) (text : List Char) (maxWidth : ℚ)
    (m : Margins) : ℚ :=
  max 40 (m.top +
    ((parseMarkdown text).map (fun b =>
      if b.kind = BlockKind.spacing then b.fontSize
      else ((wrapTextForMarkdown measure (fullTextOf b)
          (maxWidth - m.left - m.right) b).length : ℚ) * lineHeightOf b)).sum +
    m.bottom)

/-! ### Concrete fixtures used by witnesses and counterexamples -/

/-- The freshly constructed `InfiniteCanvas` state (the constructor's
field initialisers), with an 800×600 canvas. -/
def initState : CState :=
  { nodes := [], connections := [], selectedNodeIds := [],
    offsetX := 0, offsetY := 0, scale := 1, canvasW := 800, canvasH := 600,
    isDragging := false, dragStartX := 0, dragStartY := 0,
    dragTarget := DragTarget.null,
    isConnecting := false, connectionStart := none,
    isResizing := false, resizeHandle := none, resizeTarget := none,
    isSelecting := false,
    selectionStartX := 0, selectionStartY := 0,
    selectionEndX := 0, selectionEndY := 0,
    isPanning := false, spacePressed := false,
    editingNode := none, editText := none,
    lastMouseX := 0, lastMouseY := 0,
    history := [], historyIndex := -1 }

/-- A state with one 100×50 node at the origin. -/
def oneNodeState : CState :=
  { initState with nodes := [⟨1, ['A'], 0, 0, 100, 50, false, false, none⟩] }

/-- A state mid-resize on the node of `oneNodeState` (top handle grabbed,
drag anchored at the screen origin). -/
def resizingState : CState :=
  { oneNodeState with isResizing := true, resizeTarget := some 1,
                      resizeHandle := some Handle.top }

/-- A state whose history has two entries with the index on the first
(i.e. one redo step available). -/
def twoHistoryState : CState :=
  { initState with history := [([], []), ([⟨1, ['A'], 0, 0, 100, 50, false, false, none⟩], [])],
                   historyIndex := 0 }

/-- A concrete measurement oracle: one unit per character in Arial,
three units per character in the monospace code font. -/
def measureEx : Measure :=
  fun f s => (if f.family = "Arial" then 1 else 3) * (s.length : ℚ)

/-- The block parsed from the line `` `aa` bb `` (checked against
`parseMarkdown` in the drift counterexample). -/
def exBlock : Block :=
  ⟨BlockKind.text,
   BContent.rich [⟨"aa".toList, SegType.code⟩, ⟨" bb".toList, SegType.normal⟩],
   14, "normal", "normal", none, none⟩

/-! # Theorems -/

/-! ## C1: zoom-to-cursor invariant -/

/-- The clamped scale always lies in `[0.1, 3.0]`. -/
theorem clampScale_mem (s : ℚ) : 1/10 ≤ clampScale s ∧ clampScale s ≤ 3 := by
  unfold clampScale
  constructor
  · exact le_max_left _ _
  · exact max_le (by norm_num) (min_le_left _ _)

theorem clampScale_pos (s : ℚ) : 0 < clampScale s :=
  lt_of_lt_of_le (by norm_num) (clampScale_mem s).1

/-- **C1.** Zoom-to-cursor invariant: for every viewport state with scale in
`[0.1, 3.0]`, every anchor screen point and every zoom factor, the world
point that maps to the anchor screen point is unchanged by the zoom step
(`onWheel` and the `zoom` button both perform exactly this arithmetic, the
former with factor 0.9/1.1 at the mouse position, the latter at the canvas
centre).  In the exact rational model of the floating-point arithmetic the
invariant holds exactly, hence in floating point within rounding
tolerance. -/
theorem zoom_to_cursor_invariant (v : Viewport) (ax ay factor : ℚ)
    (hlo : 1/10 ≤ v.scale) (_hhi : v.scale ≤ 3) :
    screenToWorld (zoomAt v ax ay factor) ax ay = screenToWorld v ax ay := by
  have hs : v.scale ≠ 0 := by
    intro h
    rw [h] at hlo
    norm_num at hlo
  have hns : clampScale (v.scale * factor) ≠ 0 :=
    ne_of_gt (clampScale_pos _)
  unfold screenToWorld zoomAt
  simp only [Prod.mk.injEq]
  constructor <;> field_simp <;> ring

/-- Witness for C1 at a concrete state: scale 1, offset (3, 4), anchor
(10, 20), factor 2. -/
theorem zoom_to_cursor_invariant_witness :
    screenToWorld (zoomAt ⟨3, 4, 1⟩ 10 20 2) 10 20 =
      screenToWorld ⟨3, 4, 1⟩ 10 20 :=
  zoom_to_cursor_invariant ⟨3, 4, 1⟩ 10 20 2 (by norm_num) (by norm_num)

/-! ## C2: inline styling precedence -/

/-- **C2, counterexample.** Parsing `"**a*b*c**"` does *not* yield exactly
one bold segment with literal text `a*b*c`: the collected bold and italic
matches are all emitted (the code rejects no overlapping candidate and
`currentIndex` moves backwards after the bold match), producing six
segments. -/
theorem inline_styling_counterexample :
    processInlineFormatting "**a*b*c**".toList ≠
      [⟨"a*b*c".toList, SegType.bold⟩] := by
  decide

/-- **C2, amended.** `processInlineFormatting` collects every match of the
lazy bold, italic and code regexes (in that pattern order), stably sorts
them by start position, and emits each one, re-reading gap text relative
to a running index that can move backwards; overlapping candidates are not
rejected and code spans are not exempted.  Consequently `"**a*b*c**"`
parses to the six segments
[bold `a*b*c`, italic ``, normal `a`, italic `b`, normal `c`, italic ``]
and `"*x* **y**"` parses to the six segments
[italic `x`, normal ` `, bold `y`, italic ``, normal `y`, italic ``]. -/
theorem inline_styling_actual_segments :
    processInlineFormatting "**a*b*c**".toList =
      [⟨"a*b*c".toList, SegType.bold⟩, ⟨[], SegType.italic⟩,
       ⟨"a".toList, SegType.normal⟩, ⟨"b".toList, SegType.italic⟩,
       ⟨"c".toList, SegType.normal⟩, ⟨[], SegType.italic⟩] ∧
    processInlineFormatting "*x* **y**".toList =
      [⟨"x".toList, SegType.italic⟩, ⟨" ".toList, SegType.normal⟩,
       ⟨"y".toList, SegType.bold⟩, ⟨[], SegType.italic⟩,
       ⟨"y".toList, SegType.normal⟩, ⟨[], SegType.italic⟩] := by
  constructor <;> decide

/-! ## Projection helpers -/

@[simp] theorem saveState_nodes (s : CState) : (saveState s).nodes = s.nodes := rfl

@[simp] theorem saveState_connections (s : CState) :
    (saveState s).connections = s.connections := rfl

@[simp] theorem saveState_scale (s : CState) : (saveState s).scale = s.scale := rfl

@[simp] theorem saveState_offsetX (s : CState) :
    (saveState s).offsetX = s.offsetX := rfl

@[simp] theorem saveState_offsetY (s : CState) :
    (saveState s).offsetY = s.offsetY := rfl

@[simp] theorem saveState_history (s : CState) :
    (saveState s).history = (saveHistStep s.history s.historyIndex (snapshotOf s)).1 := rfl

@[simp] theorem saveState_historyIndex (s : CState) :
    (saveState s).historyIndex = (saveHistStep s.history s.historyIndex (snapshotOf s)).2 := rfl

/-- `createConnection` is a no-op when a connection between the two ids
already exists (in either direction). -/
theorem createConnection_skip (s : CState) (a b f : Nat)
    (h : s.connections.any (fun c =>
      (c.fromId == a && c.toId == b) || (c.fromId == b && c.toId == a)) = true) :
    createConnection s a b f = s := by
  unfold createConnection
  rw [h]
  simp

/-- `createConnection` appends the new connection when none exists. -/
theorem createConnection_add (s : CState) (a b f : Nat)
    (h : s.connections.any (fun c =>
      (c.fromId == a && c.toId == b) || (c.fromId == b && c.toId == a)) = false) :
    (createConnection s a b f).connections = s.connections ++ [⟨f, a, b⟩] := by
  unfold createConnection
  rw [h]
  simp

/-! ## C7: undirected uniqueness of connections -/

/-- **C7.** For two nodes `a ≠ b` with no existing connection between them,
calling `createConnection` twice — second call in either order — leaves
exactly one connection between `a` and `b` in the connections list. -/
theorem connection_undirected_unique (s : CState) (a b f1 f2 : Nat)
    (h : s.connections.countP
      (fun c => (c.fromId == a && c.toId == b) ||
                (c.fromId == b && c.toId == a)) = 0) :
    ((createConnection (createConnection s a b f1) a b f2).connections.countP
      (fun c => (c.fromId == a && c.toId == b) ||
                (c.fromId == b && c.toId == a)) = 1) ∧
    ((createConnection (createConnection s a b f1) b a f2).connections.countP
      (fun c => (c.fromId == a && c.toId == b) ||
                (c.fromId == b && c.toId == a)) = 1) := by
  have hall : ∀ c ∈ s.connections,
      ((c.fromId == a && c.toId == b) || (c.fromId == b && c.toId == a)) = false := by
    intro c hc
    have := List.countP_eq_zero.mp h c hc
    simpa using this
  have hany : s.connections.any
      (fun c => (c.fromId == a && c.toId == b) ||
                (c.fromId == b && c.toId == a)) = false := by
    rw [List.any_eq_false]
    intro c hc
    simpa using hall c hc
  have hfirst : (createConnection s a b f1).connections =
      s.connections ++ [⟨f1, a, b⟩] := createConnection_add s a b f1 hany
  have hcount : (createConnection s a b f1).connections.countP
      (fun c => (c.fromId == a && c.toId == b) ||
                (c.fromId == b && c.toId == a)) = 1 := by
    rw [hfirst, List.countP_append, h]
    simp [List.countP_cons]
  constructor
  · rw [createConnection_skip (createConnection s a b f1) a b f2 ?_]
    · exact hcount
    · rw [hfirst]
      simp
  · rw [createConnection_skip (createConnection s a b f1) b a f2 ?_]
    · exact hcount
    · rw [hfirst]
      simp

/-- Witness for C7: nodes 1 and 2 on the empty connection list. -/
theorem connection_undirected_unique_witness :
    ((createConnection (createConnection initState 1 2 7) 1 2 8).connections.countP
      (fun c => (c.fromId == 1 && c.toId == 2) ||
                (c.fromId == 2 && c.toId == 1)) = 1) := by
  exact (connection_undirected_unique initState 1 2 7 8 (by decide)).1

/-! ## C8: resize minimum bounds -/

/-- The per-node resize computation never drops below the clamped minimums,
for any handle, deltas and starting geometry within bounds. -/
theorem resizeNodeStep_bounds (h : Handle) (sdx sdy : ℚ) (n : Node)
    (hw : 60 ≤ n.width) (hh : 40 ≤ n.height) :
    60 ≤ (resizeNodeStep h sdx sdy n).width ∧
    40 ≤ (resizeNodeStep h sdx sdy n).height := by
  cases h <;>
    · simp only [resizeNodeStep]
      try split_ifs
      all_goals
        refine ⟨?_, ?_⟩ <;>
          first
            | assumption
            | exact le_max_left _ _
            | simp_all

set_option maxHeartbeats 1600000 in
/-- **C8.** If every node satisfies `width ≥ 60` and `height ≥ 40` before a
pointer-move event, every node still does afterwards — in particular no
resize move on any of the 8 handles, for any pointer delta and any scale,
leaves the target below the minimums. -/
theorem resize_keeps_min_size (s : CState) (e : MouseEv)
    (hall : ∀ n ∈ s.nodes, 60 ≤ n.width ∧ 40 ≤ n.height) :
    ∀ n ∈ (onMouseMove s e).nodes, 60 ≤ n.width ∧ 40 ≤ n.height := by
  unfold onMouseMove
  dsimp only
  repeat' split
  all_goals intro n hn
  all_goals try exact hall n hn
  all_goals rcases List.mem_map.mp hn with ⟨m, hm, rfl⟩
  all_goals split
  all_goals
    first
      | exact resizeNodeStep_bounds _ _ _ m (hall m hm).1 (hall m hm).2
      | exact ⟨(hall m hm).1, (hall m hm).2⟩

/-- Witness for C8: the node produced by a concrete top-handle resize move
on the 100×50 node keeps the minimum size. -/
theorem resize_keeps_min_size_witness :
    60 ≤ (resizeNodeStep Handle.top 5 30
        ⟨1, ['A'], 0, 0, 100, 50, false, false, none⟩).width ∧
    40 ≤ (resizeNodeStep Handle.top 5 30
        ⟨1, ['A'], 0, 0, 100, 50, false, false, none⟩).height :=
  resize_keeps_min_size resizingState ⟨0, false, false, 5, 30⟩ (by decide)
    (resizeNodeStep Handle.top 5 30 ⟨1, ['A'], 0, 0, 100, 50, false, false, none⟩)
    (by simp [onMouseMove, resizingState, oneNodeState, initState])

/-! ## C10: resize frame conditions -/

set_option maxHeartbeats 1600000 in
/-- **C10.** A resize move event mutates only the resize-target node:
the node list is the pointwise map that touches only the target id (so
every other node is unchanged and still present), connections and the
viewport offset/scale are unchanged; and in exact arithmetic the edge
opposite the active handle is fixed: a `top` resize preserves `x`, `width`
and the bottom edge `y + height`; a `left` resize preserves `y`, `height`
and the right edge `x + width`; a `bottom-right` resize preserves `x` and
`y`. -/
theorem resize_move_frame (s : CState) (e : MouseEv) (tid : Nat) (h : Handle)
    (hsel : s.isSelecting = false) (hconn : s.isConnecting = false)
    (hres : s.isResizing = true) (htgt : s.resizeTarget = some tid)
    (hhd : s.resizeHandle = some h) :
    (onMouseMove s e).nodes = s.nodes.map (fun n =>
      if n.id = tid then
        resizeNodeStep h ((e.x - s.dragStartX) / s.scale)
          ((e.y - s.dragStartY) / s.scale) n
      else n) ∧
    (onMouseMove s e).connections = s.connections ∧
    (onMouseMove s e).offsetX = s.offsetX ∧
    (onMouseMove s e).offsetY = s.offsetY ∧
    (onMouseMove s e).scale = s.scale ∧
    (∀ n ∈ s.nodes, n.id ≠ tid → n ∈ (onMouseMove s e).nodes) ∧
    (∀ (m : Node) (a b : ℚ),
      ((resizeNodeStep Handle.top a b m).x = m.x ∧
       (resizeNodeStep Handle.top a b m).width = m.width ∧
       (resizeNodeStep Handle.top a b m).y + (resizeNodeStep Handle.top a b m).height
         = m.y + m.height) ∧
      ((resizeNodeStep Handle.left a b m).y = m.y ∧
       (resizeNodeStep Handle.left a b m).height = m.height ∧
       (resizeNodeStep Handle.left a b m).x + (resizeNodeStep Handle.left a b m).width
         = m.x + m.width) ∧
      ((resizeNodeStep Handle.bottomRight a b m).x = m.x ∧
       (resizeNodeStep Handle.bottomRight a b m).y = m.y)) := by
  have hstate : onMouseMove s e =
      { s with
        lastMouseX := e.x,
        lastMouseY := e.y,
        nodes := s.nodes.map (fun n =>
          if n.id = tid then
            resizeNodeStep h ((e.x - s.dragStartX) / s.scale)
              ((e.y - s.dragStartY) / s.scale) n
          else n),
        dragStartX := e.x,
        dragStartY := e.y } := by
    unfold onMouseMove
    simp [hsel, hconn, hres, htgt, hhd]
  rw [hstate]
  refine ⟨rfl, rfl, rfl, rfl, rfl, ?_, ?_⟩
  · intro n hn hne
    exact List.mem_map.mpr ⟨n, hn, by simp [hne]⟩
  · intro m a b
    refine ⟨⟨?_, ?_, ?_⟩, ⟨?_, ?_, ?_⟩, ?_, ?_⟩ <;>
      · simp only [resizeNodeStep]
        try split_ifs
        all_goals first | rfl | ring

/-- Witness for C10: the connections are untouched by a concrete resize
move on the 100×50 node. -/
theorem resize_move_frame_witness :
    (onMouseMove resizingState ⟨0, false, false, 5, 30⟩).connections =
      resizingState.connections :=
  ((resize_move_frame resizingState ⟨0, false, false, 5, 30⟩ 1 Handle.top
    rfl rfl rfl rfl rfl).2).1

/-! ## C5: the history push invariant -/

/-- The push invariant at the level of the pure history step. -/
theorem saveHistStep_invariant (hist : List Snapshot) (idx : Int) (snap : Snapshot)
    (h0 : 0 ≤ idx) (h1 : idx < (hist.length : Int)) (h2 : hist.length ≤ maxHistorySize) :
    ((saveHistStep hist idx snap).1.length ≤ maxHistorySize) ∧
    ((saveHistStep hist idx snap).2 = ((saveHistStep hist idx snap).1.length : Int) - 1) ∧
    (idx < (hist.length : Int) - 1 →
      (saveHistStep hist idx snap).1 = hist.take (idx + 1).toNat ++ [snap] ∧
      (saveHistStep hist idx snap).2 = idx + 1) ∧
    (idx = (hist.length : Int) - 1 ∧ hist.length = maxHistorySize →
      (saveHistStep hist idx snap).1 = hist.drop 1 ++ [snap] ∧
      (saveHistStep hist idx snap).1.length = maxHistorySize ∧
      (saveHistStep hist idx snap).1[0]? = hist[1]?) := by
  have h50 : hist.length ≤ 50 := h2
  unfold saveHistStep maxHistorySize
  by_cases htr : idx < (hist.length : Int) - 1
  · rw [if_pos htr]
    have hno : ¬ (50 < ((hist.take (idx + 1).toNat) ++ [snap]).length) := by
      simp only [List.length_append, List.length_take, List.length_cons, List.length_nil]
      omega
    rw [if_neg hno]
    refine ⟨?_, ?_, fun _ => ⟨rfl, rfl⟩, fun hc => absurd hc.1 (by omega)⟩
    · simp only [List.length_append, List.length_take, List.length_cons, List.length_nil]
      omega
    · simp only [List.length_append, List.length_take, List.length_cons, List.length_nil]
      push_cast
      omega
  · rw [if_neg htr]
    have heq : idx = (hist.length : Int) - 1 := by omega
    by_cases hfull : hist.length = 50
    · have hover : 50 < (hist ++ [snap]).length := by
        simp [hfull]
      rw [if_pos hover]
      have hd : (hist ++ [snap]).drop 1 = hist.drop 1 ++ [snap] :=
        List.drop_append_of_le_length (by omega)
      refine ⟨?_, ?_, fun hc => absurd hc (by omega), fun _ => ⟨hd, ?_, ?_⟩⟩
      · simp [hd, hfull]
      · simp only [hd, List.length_append, List.length_drop, List.length_cons,
          List.length_nil, hfull]
        push_cast
        omega
      · simp [hd, hfull]
      · rw [hd, List.getElem?_append_left (by simp [hfull]), List.getElem?_drop]
    · have hno : ¬ (50 < (hist ++ [snap]).length) := by
        simp only [List.length_append, List.length_cons, List.length_nil]
        omega
      rw [if_neg hno]
      refine ⟨?_, ?_, fun hc => absurd hc (by omega), fun hc => absurd hc.2 (by omega)⟩
      · simp only [List.length_append, List.length_cons, List.length_nil]
        omega
      · simp only [List.length_append, List.length_cons, List.length_nil]
        push_cast
        omega

/-- **C5.** After every `saveState` push from a well-formed history state
(valid index, length within the bound): the history never exceeds 50
entries and the index points at the just-pushed last entry; a push with
the index strictly before the end first discards the redo branch
(`slice(0, index+1)`), then appends the snapshot and advances
the index; a push at the bound evicts exactly the oldest entry, the length
stays 50, and the remaining oldest entry (the old second entry) is the new
entry 0 — the undo floor, reachable because the index equals length−1. -/
theorem history_push_invariant (s : CState)
    (h0 : 0 ≤ s.historyIndex) (h1 : s.historyIndex < (s.history.length : Int))
    (h2 : s.history.length ≤ maxHistorySize) :
    ((saveState s).history.length ≤ maxHistorySize) ∧
    ((saveState s).historyIndex = ((saveState s).history.length : Int) - 1) ∧
    (s.historyIndex < (s.history.length : Int) - 1 →
      (saveState s).history =
        s.history.take (s.historyIndex + 1).toNat ++ [snapshotOf s] ∧
      (saveState s).historyIndex = s.historyIndex + 1) ∧
    (s.historyIndex = (s.history.length : Int) - 1 ∧
        s.history.length = maxHistorySize →
      (saveState s).history = s.history.drop 1 ++ [snapshotOf s] ∧
      (saveState s).history.length = maxHistorySize ∧
      (saveState s).history[0]? = s.history[1]?) :=
  saveHistStep_invariant s.history s.historyIndex (snapshotOf s) h0 h1 h2

/-- Witness for C5: a push on a 2-entry history with the index on the
first entry (truncation case). -/
theorem history_push_invariant_witness :
    (saveState twoHistoryState).history.length ≤ maxHistorySize ∧
    (saveState twoHistoryState).historyIndex = 1 :=
  ⟨(history_push_invariant twoHistoryState (by decide) (by decide) (by decide)).1,
   ((history_push_invariant twoHistoryState (by decide) (by decide) (by decide)).2.2.1
     (by decide)).2⟩

/-! ## C3: snapshot-before-mutation helper lemmas -/

@[simp] theorem clearSelection_history (s : CState) :
    (clearSelection s).history = s.history := rfl

@[simp] theorem selectNodes_history (s : CState) (ids : List Nat) :
    (selectNodes s ids).history = s.history := rfl

@[simp] theorem selectNode_history (s : CState) (nid : Nat) :
    (selectNode s nid).history = s.history := rfl

@[simp] theorem addToSelection_history (s : CState) (nid : Nat) :
    (addToSelection s nid).history = s.history := by
  unfold addToSelection
  split_ifs <;> rfl

@[simp] theorem removeFromSelection_history (s : CState) (nid : Nat) :
    (removeFromSelection s nid).history = s.history := rfl

theorem foldl_addToSelection_history (l : List Node) (acc : CState) :
    (l.foldl (fun a n => addToSelection a n.id) acc).history = acc.history := by
  induction l generalizing acc with
  | nil => rfl
  | cons x xs ih => simp [List.foldl_cons, ih]

theorem saveHistStep_last (hist : List Snapshot) (idx : Int) (snap : Snapshot) :
    (saveHistStep hist idx snap).1.getLast? = some snap := by
  unfold saveHistStep
  dsimp only
  by_cases h1 : idx < (hist.length : Int) - 1
  · rw [if_pos h1]
    by_cases h2 : maxHistorySize < (hist.take (idx + 1).toNat ++ [snap]).length
    · rw [if_pos h2]
      dsimp only
      rw [List.drop_append_of_le_length (by
        simp only [maxHistorySize, List.length_append, List.length_take,
          List.length_cons, List.length_nil] at h2 ⊢
        omega)]
      simp
    · rw [if_neg h2]
      simp
  · rw [if_neg h1]
    by_cases h2 : maxHistorySize < (hist ++ [snap]).length
    · rw [if_pos h2]
      dsimp only
      rw [List.drop_append_of_le_length (by
        simp only [maxHistorySize, List.length_append, List.length_cons,
          List.length_nil] at h2 ⊢
        omega)]
      simp
    · rw [if_neg h2]
      simp

@[simp] theorem mdBorderResize_history (s : CState) (nd : Node) (h : Handle) :
    (mdBorderResize s nd h).history = s.history := by
  unfold mdBorderResize
  dsimp only
  split_ifs <;> simp

@[simp] theorem mdNodeBody_history (s : CState) (e : MouseEv) (nd : Node) (cx cy : ℚ) :
    (mdNodeBody s e nd cx cy).history = s.history := by
  unfold mdNodeBody
  dsimp only
  repeat' split
  all_goals simp

@[simp] theorem mdEmpty_history (s : CState) (e : MouseEv) (cx cy : ℚ) :
    (mdEmpty s e cx cy).history = s.history := by
  unfold mdEmpty
  dsimp only
  split_ifs <;> simp

theorem onMouseDown_history (s : CState) (e : MouseEv) :
    (onMouseDown s e).history = s.history := by
  unfold onMouseDown
  try dsimp only
  repeat' split
  all_goals simp

set_option maxHeartbeats 1600000 in
theorem onMouseMove_history (s : CState) (e : MouseEv) :
    (onMouseMove s e).history = s.history := by
  unfold onMouseMove
  dsimp only
  repeat' split
  all_goals rfl

set_option maxHeartbeats 1600000 in
theorem onMouseUp_history (s : CState) (e : MouseEv) (f : Nat)
    (hconn : s.isConnecting = false) :
    (onMouseUp s e f).history = s.history := by
  unfold onMouseUp
  dsimp only
  split
  · split
    · exact foldl_addToSelection_history _ _
    · simp
  · rw [hconn]
    try dsimp only
    split
    · simp_all
    · split
      · rfl
      · rfl


/-- **C3, amended.** Every discrete mutating action — node creation,
connection creation (when no duplicate exists), node deletion, text
commit, and import — performs exactly one `saveState` push, and the pushed
snapshot is the pre-mutation graph (`saveState` pushes the current nodes
and connections, which the operation only mutates afterwards).  Drag and
resize gestures, however, push *no* snapshot at all: none of the mouse
handlers touches the history (the mouse-up case excluded here is the
connection-completion release, which is connection creation). -/
theorem mutation_snapshot_discipline :
    (∀ s : CState, (saveState s).history.getLast? = some (snapshotOf s)) ∧
    (∀ (s : CState) (f : Nat) (t : List Char) (x y : Option ℚ) (g : Option (List Char)),
       (createNode s f t x y g).history = (saveState s).history ∧
       (createNode s f t x y g).historyIndex = (saveState s).historyIndex) ∧
    (∀ (s : CState) (a b f : Nat),
       s.connections.any (fun c => (c.fromId == a && c.toId == b) ||
         (c.fromId == b && c.toId == a)) = false →
       (createConnection s a b f).history = (saveState s).history) ∧
    (∀ (s : CState) (nid i : Nat), s.nodes.findIdx? (fun n => n.id == nid) = some i →
       (deleteNode s nid).history = (saveState s).history) ∧
    (∀ (s : CState) (m : Measure) (nid : Nat) (txt : List Char),
       s.editingNode = some nid → s.editText = some txt →
       (finishEditingNode s m).history = (saveState s).history) ∧
    (∀ (s : CState) (d : ImportData),
       (loadCanvasData s d).history = (saveState s).history) ∧
    (∀ (s : CState) (e : MouseEv), (onMouseDown s e).history = s.history) ∧
    (∀ (s : CState) (e : MouseEv), (onMouseMove s e).history = s.history) ∧
    (∀ (s : CState) (e : MouseEv) (f : Nat), s.isConnecting = false →
       (onMouseUp s e f).history = s.history) := by
  refine ⟨?_, ?_, ?_, ?_, ?_, ?_, ?_, ?_, ?_⟩
  · intro s
    rw [saveState_history]
    exact saveHistStep_last _ _ _
  · intro s f t x y g
    exact ⟨rfl, rfl⟩
  · intro s a b f h
    unfold createConnection
    rw [h]
    rfl
  · intro s nid i h
    unfold deleteNode
    rw [h]
    rfl
  · intro s m nid txt h1 h2
    unfold finishEditingNode
    rw [h1, h2]
  · intro s d
    obtain ⟨dn, dc, dox, doy, dsc⟩ := d
    cases dox <;> cases doy <;> cases dsc <;> rfl
  · exact onMouseDown_history
  · exact onMouseMove_history
  · exact onMouseUp_history

/-- Witness for C3 at a concrete state: a mouse-up on the fresh state
leaves the history unchanged. -/
theorem mutation_snapshot_discipline_witness :
    (onMouseUp initState ⟨0, false, false, 0, 0⟩ 3).history = initState.history :=
  mutation_snapshot_discipline.2.2.2.2.2.2.2.2 initState ⟨0, false, false, 0, 0⟩ 3 rfl

/-- **C4 (code bug).** One mutation from the freshly initialised state
(`init` pushes the initial snapshot, then `createNode` pushes its
pre-mutation snapshot and appends the node), followed by `undo()` and then
`redo()`, yields the *empty* graph — the state before the mutation — not
the state after it: `saveState` only ever pushes pre-mutation snapshots,
so `history[historyIndex]` trails the live state by one mutation and the
round-trip loses the last mutation. -/
theorem undo_redo_roundtrip_failure :
    ((redo (undo (createNode (saveState initState) 1 ['A'] (some 10) (some 20) none))).nodes
      = []) ∧
    ((createNode (saveState initState) 1 ['A'] (some 10) (some 20) none).nodes ≠ []) := by
  constructor
  · decide
  · decide

/-- **C3, counterexample.** A complete drag gesture (mouse-down on the
node body at (50, 25), one move to (60, 35), mouse-up) moves the node —
the graph mutates — yet the history is unchanged: zero snapshots are
pushed, not the claimed one snapshot per gesture. -/
theorem gesture_no_snapshot_counterexample :
    ((onMouseUp (onMouseMove (onMouseDown oneNodeState ⟨0, false, false, 50, 25⟩)
        ⟨0, false, false, 60, 35⟩) ⟨0, false, false, 60, 35⟩ 99).history
      = oneNodeState.history) ∧
    ((onMouseUp (onMouseMove (onMouseDown oneNodeState ⟨0, false, false, 50, 25⟩)
        ⟨0, false, false, 60, 35⟩) ⟨0, false, false, 60, 35⟩ 99).nodes
      ≠ oneNodeState.nodes) := by
  have hdown : onMouseDown oneNodeState ⟨0, false, false, 50, 25⟩ =
      { oneNodeState with
        nodes := [⟨1, ['A'], 0, 0, 100, 50, true, false, none⟩],
        selectedNodeIds := [1],
        isDragging := true,
        dragStartX := 50, dragStartY := 25,
        dragTarget := DragTarget.node 1,
        lastMouseX := 50, lastMouseY := 25 } := by
    norm_num [onMouseDown, mdBorderResize, mdNodeBody, mdEmpty, getNodeAtPoint,
      containsPoint, getBorderResizeHandle, getResizeHandle, isSelectedId,
      selectNode, selectNodes, clearSelection, addToSelection,
      removeFromSelection, oneNodeState, initState, List.find?]
  have hmove : onMouseMove (onMouseDown oneNodeState ⟨0, false, false, 50, 25⟩)
      ⟨0, false, false, 60, 35⟩ =
      { oneNodeState with
        nodes := [⟨1, ['A'], 10, 10, 100, 50, true, false, none⟩],
        selectedNodeIds := [1],
        isDragging := true,
        dragStartX := 60, dragStartY := 35,
        dragTarget := DragTarget.node 1,
        lastMouseX := 60, lastMouseY := 35 } := by
    rw [hdown]
    norm_num [onMouseMove, oneNodeState, initState]
  rw [hmove]
  constructor
  · norm_num [onMouseUp, oneNodeState, initState]
  · norm_num [onMouseUp, oneNodeState, initState]


/-! ## C6: viewport scale range -/

/-- **C6, counterexample.** Importing a document whose scale is 100 sets
the viewport scale to 100, outside `[0.1, 3.0]`: `loadCanvasData` (like
`loadFromLocalStorage`) assigns the stored scale without clamping. -/
theorem scale_range_counterexample :
    (loadCanvasData initState ⟨[], [], none, none, some 100⟩).scale = 100 ∧
    ¬ (1/10 ≤ (loadCanvasData initState ⟨[], [], none, none, some 100⟩).scale ∧
       (loadCanvasData initState ⟨[], [], none, none, some 100⟩).scale ≤ 3) := by
  have h : (loadCanvasData initState ⟨[], [], none, none, some 100⟩).scale = 100 := rfl
  refine ⟨h, ?_⟩
  rw [h]
  rintro ⟨-, hc⟩
  norm_num at hc

/-- **C6, amended.** The scale stays in `[0.1, 3.0]` under the zoom
operations (wheel and button zoom clamp via `Math.max(0.1, Math.min(3.0,
·))`) and `resetView` (scale 1); but `loadCanvasData` and
`loadFromLocalStorage` assign the persisted scale unclamped (the latter
maps only a falsy 0 to 1), so the invariant holds after load/import only
when the stored value already lies in the range. -/
theorem scale_clamped_only_by_zoom :
    (∀ (v : Viewport) (ax ay f : ℚ),
       1/10 ≤ (zoomAt v ax ay f).scale ∧ (zoomAt v ax ay f).scale ≤ 3) ∧
    (∀ v : Viewport, 1/10 ≤ (resetView v).scale ∧ (resetView v).scale ≤ 3) ∧
    (∀ (s : CState) (d : ImportData) (w : ℚ), d.scale = some w →
       (loadCanvasData s d).scale = w) ∧
    (∀ (s : CState) (d : ImportData), d.scale = none →
       (loadCanvasData s d).scale = s.scale) ∧
    (∀ (s : CState) (st : StoredData),
       (loadFromLocalStorage s (some st)).scale =
         match st.scale with
         | none => 1
         | some w => if w = 0 then 1 else w) := by
  refine ⟨?_, ?_, ?_, ?_, ?_⟩
  · intro v ax ay f
    exact clampScale_mem _
  · intro v
    norm_num [resetView]
  · intro s d w h
    obtain ⟨dn, dc, dox, doy, dsc⟩ := d
    cases dox <;> cases doy <;> simp_all [loadCanvasData]
  · intro s d h
    obtain ⟨dn, dc, dox, doy, dsc⟩ := d
    cases dox <;> cases doy <;> simp_all [loadCanvasData]
  · intro s st
    rfl

/-- Witness for C6: a clamped zoom at factor 100 and an in-range import. -/
theorem scale_clamped_only_by_zoom_witness :
    (1/10 ≤ (zoomAt ⟨0, 0, 1⟩ 0 0 100).scale ∧ (zoomAt ⟨0, 0, 1⟩ 0 0 100).scale ≤ 3) ∧
    (loadCanvasData initState ⟨[], [], none, none, some 2⟩).scale = 2 :=
  ⟨scale_clamped_only_by_zoom.1 ⟨0, 0, 1⟩ 0 0 100,
   scale_clamped_only_by_zoom.2.2.1 initState ⟨[], [], none, none, some 2⟩ 2 rfl⟩

/-! ## C9: total height formula and render drift -/

/-- Folding `acc + g x` equals the initial value plus the mapped sum. -/
theorem foldl_add_eq {α : Type} (g : α → ℚ) (l : List α) (a : ℚ) :
    l.foldl (fun acc x => acc + g x) a = a + (l.map g).sum := by
  induction l generalizing a with
  | nil => simp
  | cons x xs ih => simp [ih, add_assoc]

/-- **C9, amended.** (i) `calculateMarkdownHeight` equals the
specification's formula exactly: the sum over all parsed blocks of
(wrapped-line count × line height, with line height = font size + 8 for
headers, + 6 for lists, + 4 otherwise, and spacing blocks contributing
their font size), plus the top and bottom margins, floored at 40.
(ii) The wrap used for measuring (`wrapTextForMarkdown`) is exactly the
renderer's greedy wrap (`wrapTextForRendering`) under the block's font
and effective width — the algorithms agree for plain string content.  The
renderer however draws segment-styled blocks through a different
segment-fitting algorithm, so drawn and measured heights can drift (see
the counterexample). -/
theorem totalHeight_formula_and_wrap_agreement :
    (∀ (measure : Measure) (t : List Char) (w : ℚ) (m : Margins),
       calculateMarkdownHeight measure t w m = totalHeightSpec measure t w m) ∧
    (∀ (measure : Measure) (t : List Char) (w : ℚ) (item : Block),
       wrapTextForMarkdown measure t w item =
         wrapTextForRendering (measure (itemFont item)) t
           (if item.kind = BlockKind.list then w - 20 else w)) := by
  constructor
  · intro measure t w m
    unfold calculateMarkdownHeight totalHeightSpec
    dsimp only
    have hfn : (fun (acc : ℚ) item =>
        if item.kind = BlockKind.spacing then acc + item.fontSize
        else acc + ((wrapTextForMarkdown measure (fullTextOf item)
            (w - m.left - m.right) item).length : ℚ) * lineHeightOf item) =
        (fun (acc : ℚ) item => acc +
          (if item.kind = BlockKind.spacing then item.fontSize
           else ((wrapTextForMarkdown measure (fullTextOf item)
              (w - m.left - m.right) item).length : ℚ) * lineHeightOf item)) := by
      funext acc item
      split <;> rfl
    rw [hfn, foldl_add_eq]
  · intro measure t w item
    rfl

/-- **C9, counterexample.** At the same effective width 5 (the renderer
receives `maxWidth = 29`, `padding = 24`; the measurement receives
`maxWidth = 29` with left + right margins 24) and a measurement oracle
that reports the monospace code font 3× as wide as Arial, the line
`` `aa` bb `` measures as *one* wrapped line (height calculation flattens
the segments to `aa bb` and wraps under the block's Arial font), while
`renderInlineFormattedText` draws *two* lines (the code segment `aa`
measures 6 > 5 under its own font and is word-broken onto its own line):
the vertical advance is 36 = 2 × 18 where the measured height counted
1 × 18 — measured and drawn heights drift. -/
theorem height_render_drift_counterexample :
    (parseMarkdown "`aa` bb".toList = [exBlock]) ∧
    ((wrapTextForMarkdown measureEx (fullTextOf exBlock) 5 exBlock).length = 1) ∧
    (renderInlineFormattedText measureEx exBlock
       [⟨"aa".toList, SegType.code⟩, ⟨" bb".toList, SegType.normal⟩]
       0 29 24 18 1000 = 36) := by
  have hsplit : splitOnChar ' ' (fullTextOf exBlock) = ["aa".toList, "bb".toList] := by
    decide
  have hsplit2 : splitOnChar ' ' ("aa".toList) = ["aa".toList] := by decide
  have hsplit3 : splitOnChar ' ' (" bb".toList) = [[], "bb".toList] := by decide
  refine ⟨by decide, ?_, ?_⟩
  · rw [wrapTextForMarkdown]
    rw [if_neg (by decide)]
    rw [hsplit]
    simp [exBlock, itemFont, measureEx]
    norm_num
    simp
  · rw [renderInlineFormattedText]
    norm_num [segLoop, wordBreakLoop, collectWords, getFontForSegment, measureEx,
      exBlock, hsplit2, hsplit3]
    try simp
    try norm_num [segLoop, wordBreakLoop, collectWords, getFontForSegment, measureEx,
      exBlock, hsplit2, hsplit3]
    try simp
    try norm_num [segLoop, wordBreakLoop, collectWords, getFontForSegment, measureEx,
      exBlock, hsplit2, hsplit3]

end HumosCanvas
